import Mathlib

/-!
Shallow embedding of the subsidy-portal scraper (`src/subsidy_scraper/scraper.py`)
and of the JGrants API client (`src/subsidy_search_lib/api_client.py`).

Text is modelled as `List Char` (Python `str`), HTML documents as a tree of
element and text nodes (the BeautifulSoup parse tree), and the regular
expressions used by the scraper as explicit backtracking matchers over
character lists.  Network fetches are modelled as oracles `Nat → Option Node`
(page number to markup) and `Str → Option Node` (detail URL to markup);
`none` is a failed fetch.
-/

/-- Python strings are modelled as lists of characters. -/
abbrev Str := List Char

/-- Whitespace as recognised by Python `str.strip` / regex `\s` (ASCII
whitespace plus the ideographic space U+3000, the cases relevant here). -/
def isPySpace (c : Char) : Bool :=
  c = ' ' || c = '\t' || c = '\n' || c = '\r' || c = '\x0b' || c = '\x0c' || c = '　'

/-- Python `str.strip()`: drop whitespace from both ends. -/
def pyStrip (s : Str) : Str :=
  ((s.dropWhile isPySpace).reverse.dropWhile isPySpace).reverse

/-- Python `str.split("\n")`. -/
def splitOnNl : Str → List Str
  | [] => [[]]
  | c :: rest =>
    if c = '\n' then [] :: splitOnNl rest
    else
      match splitOnNl rest with
      | [] => [[c]]
      | l :: ls => (c :: l) :: ls

/-- Python `"\n".join(...)`. -/
def joinNl (ls : List Str) : Str := List.intercalate ['\n'] ls

/-- Python substring test `needle in hay`. -/
def containsSub (needle : Str) : Str → Bool
  | [] => needle.isEmpty
  | c :: rest => needle.isPrefixOf (c :: rest) || containsSub needle rest

/-- Fuel-driven worker for `replaceAll`; the fuel is an upper bound on the
number of steps, each step consumes at least one character of the subject. -/
def replaceAllF : Nat → Str → Str → Str → Str
  | 0, _, _, s => s
  | _ + 1, _, _, [] => []
  | f + 1, pat, rep, c :: rest =>
    if pat ≠ [] && pat.isPrefixOf (c :: rest) then
      rep ++ replaceAllF f pat rep (List.drop (pat.length - 1) rest)
    else
      c :: replaceAllF f pat rep rest

/-- Python `s.replace(pat, rep)`: replace every non-overlapping occurrence,
scanning left to right. -/
def replaceAll (pat rep s : Str) : Str := replaceAllF (s.length + 1) pat rep s

/-- ASCII decimal digit, the characters matched by `\d` in the scraped pages. -/
def isDig (c : Char) : Bool := '0' ≤ c && c ≤ '9'

/-- Numeric value of a digit string (Python `int(...)` on a match group). -/
def digitsToNat (ds : Str) : Nat :=
  ds.foldl (fun a c => 10 * a + (c.toNat - '0'.toNat)) 0

/-- Take exactly `k` characters satisfying `p`, returning them and the rest. -/
def takeCount : Nat → (Char → Bool) → Str → Option (Str × Str)
  | 0, _, s => some ([], s)
  | _ + 1, _, [] => none
  | k + 1, p, c :: rest =>
    if p c then (takeCount k p rest).map (fun pr => (c :: pr.1, pr.2)) else none

/-- Match one literal character, returning the rest of the input. -/
def litChar (c : Char) : Str → Option Str
  | [] => none
  | d :: rest => if d = c then some rest else none

/-- Greedy `\s*`: skip as much whitespace as possible. -/
def skipWs (s : Str) : Str := s.dropWhile isPySpace

/-- Matcher for the tail `(\d{1,4})\s*件` of the total-count patterns at a
fixed position: greedy `\d{1,4}` tried from `k` digits down to one digit
(regex backtracking), each followed by `\s*` and the literal `件`. -/
def tryDigitsKen : Nat → Str → Option Nat
  | 0, _ => none
  | k + 1, s =>
    match takeCount (k + 1) isDig s with
    | some (ds, r) =>
      match litChar '件' (skipWs r) with
      | some _ => some (digitsToNat ds)
      | none => tryDigitsKen k s
    | none => tryDigitsKen k s

/-- Lazy gap `.*?(\d{1,4})\s*件`: at each position first try the number part
(shortest gap wins), otherwise consume one non-newline character (`.` does
not match a newline) and continue. -/
def captionTail : Str → Option Nat
  | [] => none
  | c :: rest =>
    match tryDigitsKen 4 (c :: rest) with
    | some n => some n
    | none => if c = '\n' then none else captionTail rest

/-- Python `re.search(r'該当する補助金.*?(\d{1,4})\s*件', text)`: leftmost
occurrence of the caption literal whose tail matches. -/
def searchCaption : Str → Option Nat
  | [] => none
  | c :: rest =>
    if ("該当する補助金".data).isPrefixOf (c :: rest) then
      match captionTail (List.drop 7 (c :: rest)) with
      | some n => some n
      | none => searchCaption rest
    else searchCaption rest

/-- Python `re.search(r'(\d{1,4})\s*件', text)`: leftmost position where the
number-of-items pattern matches. -/
def searchNumItem : Str → Option Nat
  | [] => none
  | c :: rest =>
    match tryDigitsKen 4 (c :: rest) with
    | some n => some n
    | none => searchNumItem rest

/-- Python `re.search(r'page=(\d+)', href)`: leftmost occurrence of `page=`
followed by at least one digit, capturing the maximal digit run. -/
def searchPageParam : Str → Option Nat
  | [] => none
  | c :: rest =>
    if ("page=".data).isPrefixOf (c :: rest) then
      match (List.drop 5 (c :: rest)).takeWhile isDig with
      | [] => searchPageParam rest
      | ds => some (digitsToNat ds)
    else searchPageParam rest

/-- Match at the current position: does `/subsidies/` followed by a digit
start here (the body of the pattern `/subsidies/\d+`)? -/
def hasDetailAt (s : Str) : Bool :=
  ("/subsidies/".data).isPrefixOf s &&
    (match List.drop 11 s with
     | c :: _ => isDig c
     | [] => false)

/-- Python `re.search(r'/subsidies/\d+', href)` as a Boolean. -/
def hasDetailSeg : Str → Bool
  | [] => false
  | c :: rest => hasDetailAt (c :: rest) || hasDetailSeg rest

/-- Python `SubsidyScraper._extract_subsidy_id`: the digit run of the first
match of `/subsidies/(\d+)` in the URL, if any. -/
def extract_subsidy_id : Str → Option Str
  | [] => none
  | c :: rest =>
    if hasDetailAt (c :: rest) then some ((List.drop 11 (c :: rest)).takeWhile isDig)
    else extract_subsidy_id rest

/-- Greedy `\d{1,2}` followed by a literal (the month / day fields of the
date pattern): try two digits, backtrack to one. -/
def numLit (lit : Char) (s : Str) : Option (Str × Str) :=
  let one :=
    match takeCount 1 isDig s with
    | some (ds, r) => (litChar lit r).map (fun r2 => (ds ++ [lit], r2))
    | none => none
  match takeCount 2 isDig s with
  | some (ds, r) =>
    match litChar lit r with
    | some r2 => some (ds ++ [lit], r2)
    | none => one
  | none => one

/-- The date pattern `\d{4}年\d{1,2}月\d{1,2}日`: matched text and rest. -/
def matchDate (s : Str) : Option (Str × Str) :=
  match takeCount 4 isDig s with
  | none => none
  | some (y, r1) =>
    match litChar '年' r1 with
    | none => none
    | some r2 =>
      match numLit '月' r2 with
      | none => none
      | some (m, r3) =>
        match numLit '日' r3 with
        | none => none
        | some (d, r4) => some (y ++ '年' :: (m ++ d), r4)

/-- One of the range separators `[〜～]`. -/
def tildeChar (c : Char) : Bool := c = '〜' || c = '～'

/-- Tail of the application-period pattern after the literal `申請期間`:
`\s*(date)?\s*[〜～]\s*(date)?`.  The optional first date group is tried
first and released if no separator follows (regex backtracking); either
captured group may be absent. -/
def periodTail (s : Str) : Option (Option Str × Option Str) :=
  let s1 := skipWs s
  let finish : Option Str → Str → Option Str × Option Str := fun g1 r2 =>
    match matchDate (skipWs r2) with
    | some (d2, _) => (g1, some d2)
    | none => (g1, none)
  match matchDate s1 with
  | some (d1, r) =>
    (match skipWs r with
     | c :: r2 =>
       if tildeChar c then some (finish (some d1) r2)
       else
         match s1 with
         | c1 :: r3 => if tildeChar c1 then some (finish none r3) else none
         | [] => none
     | [] =>
       match s1 with
       | c1 :: r3 => if tildeChar c1 then some (finish none r3) else none
       | [] => none)
  | none =>
    match s1 with
    | c1 :: r3 => if tildeChar c1 then some (finish none r3) else none
    | [] => none

/-- Python `re.search` of the application-period pattern
`申請期間\s*(\d{4}年\d{1,2}月\d{1,2}日)?\s*[〜～]\s*(\d{4}年\d{1,2}月\d{1,2}日)?`:
leftmost occurrence of the label whose tail matches, returning the two
optional capture groups. -/
def searchPeriod : Str → Option (Option Str × Option Str)
  | [] => none
  | c :: rest =>
    if ("申請期間".data).isPrefixOf (c :: rest) then
      match periodTail (List.drop 4 (c :: rest)) with
      | some res => some res
      | none => searchPeriod rest
    else searchPeriod rest

/-- Fuel-driven worker for `findTags`. -/
def findTagsF : Nat → Str → List Str
  | 0, _ => []
  | _ + 1, [] => []
  | f + 1, c :: rest =>
    if c = '#' then
      match rest.takeWhile (fun d => d ≠ '#') with
      | [] => findTagsF f rest
      | seg => ('#' :: seg) :: findTagsF f (rest.drop seg.length)
    else findTagsF f rest

/-- Python `re.findall(r'#[^#]+', line)`: every maximal `#`-headed segment
with at least one non-`#` character. -/
def findTags (s : Str) : List Str := findTagsF (s.length + 1) s

/-- A node of the BeautifulSoup parse tree: an element with a tag name, an
attribute list and children, or a navigable string. -/
inductive Node where
  | elem : String → List (String × String) → List Node → Node
  | text : String → Node

/-- BeautifulSoup wraps the parsed top-level nodes in a document object whose
name is `[document]` and whose parent is `None`. -/
def soupOf (roots : List Node) : Node := Node.elem "[document]" [] roots

/-- Tag name of a node; navigable strings have no tag. -/
def tagOf : Node → String
  | .elem t _ _ => t
  | .text _ => ""

/-- Attribute lookup, Python `tag.get(key)`. -/
def getAttr (n : Node) (key : String) : Option String :=
  match n with
  | .text _ => none
  | .elem _ attrs _ => (attrs.find? (fun p => p.1 = key)).map (fun p => p.2)

/-- Whether a node is a Tag (and not a NavigableString). -/
def isElem : Node → Bool
  | .elem _ _ _ => true
  | .text _ => false

mutual
/-- The `.strings` of a node: every descendant text fragment in document
order. -/
def textFrags : Node → List Str
  | .text s => [s.data]
  | .elem _ _ cs => textFragsList cs
/-- `textFrags` over a child list. -/
def textFragsList : List Node → List Str
  | [] => []
  | n :: ns => textFrags n ++ textFragsList ns
end

/-- Python `node.get_text()`: all text fragments concatenated. -/
def getTextAll (n : Node) : Str := (textFrags n).flatten

/-- Python `node.get_text(strip=True)`: fragments stripped, empty ones
dropped, concatenated. -/
def getTextStripped (n : Node) : Str :=
  (((textFrags n).map pyStrip).filter (fun s => !s.isEmpty)).flatten

/-- Python `node.get_text(separator="\n", strip=True)`: fragments stripped,
empty ones dropped, joined with newlines. -/
def getTextNlStripped (n : Node) : Str :=
  joinNl (((textFrags n).map pyStrip).filter (fun s => !s.isEmpty))

/-- The scraper's line extraction (`scraper.py` lines 91-92): the stripped
non-empty lines of `card.get_text(separator="\n", strip=True)`. -/
def card_lines (card : Node) : List Str :=
  ((splitOnNl (getTextNlStripped card)).map pyStrip).filter (fun s => !s.isEmpty)

/-- Serialization of an attribute list, part of `str(tag)`. -/
def serializeAttrs : List (String × String) → Str
  | [] => []
  | (k, v) :: rest => ' ' :: (k.data ++ '=' :: '"' :: v.data ++ '"' :: serializeAttrs rest)

mutual
/-- Python `str(tag)`: the markup of the subtree, used as the per-page card
dedup key. -/
def serialize : Node → Str
  | .text s => s.data
  | .elem t attrs cs =>
    '<' :: (t.data ++ serializeAttrs attrs ++ '>' :: serializeList cs) ++
      '<' :: '/' :: (t.data ++ ['>'])
/-- `serialize` over a child list. -/
def serializeList : List Node → Str
  | [] => []
  | n :: ns => serialize n ++ serializeList ns
end

mutual
/-- All descendants of a node in document order (pre-order), excluding the
node itself — the search space of BeautifulSoup `find_all` / `find`. -/
def descendants : Node → List Node
  | .text _ => []
  | .elem _ _ cs => descList cs
/-- `descendants` over a child list. -/
def descList : List Node → List Node
  | [] => []
  | n :: ns => n :: (descendants n ++ descList ns)
end

/-- The filter of `soup.find_all("a", href=re.compile(r'/subsidies/\d+'))`:
an anchor tag whose `href` attribute exists and matches the pattern. -/
def isDetailAnchor (n : Node) : Bool :=
  tagOf n = "a" &&
    (match getAttr n "href" with
     | some h => hasDetailSeg h.data
     | none => false)

mutual
/-- Every detail anchor of the tree paired with its ancestor chain (nearest
ancestor first, ending at the `[document]` node), in document order.  This
realises BeautifulSoup's `.parent` chain for the matched links. -/
def anchorsWithAnc (anc : List Node) : Node → List (Node × List Node)
  | .text _ => []
  | .elem t attrs cs =>
    (if isDetailAnchor (.elem t attrs cs) then [((.elem t attrs cs), anc)] else []) ++
      anchorsAncList ((.elem t attrs cs) :: anc) cs
/-- `anchorsWithAnc` over a child list. -/
def anchorsAncList (anc : List Node) : List Node → List (Node × List Node)
  | [] => []
  | n :: ns => anchorsWithAnc anc n ++ anchorsAncList anc ns
end

/-- Heading-like tags scanned by `_fetch_detail_page`. -/
def headerTags : List String := ["h2", "h3", "h4", "dt", "th"]

mutual
/-- Every heading-like element paired with its next element sibling (Python
`find_next_sibling()`, which skips navigable strings), in document order. -/
def headerPairs : Node → List (Node × Option Node)
  | .text _ => []
  | .elem _ _ cs => headerPairsList cs
/-- `headerPairs` over a sibling list. -/
def headerPairsList : List Node → List (Node × Option Node)
  | [] => []
  | n :: ns =>
    (if tagOf n ∈ headerTags then [(n, ns.find? isElem)] else []) ++
      (headerPairs n ++ headerPairsList ns)
end

/-- The scraper's detail-page URL base. -/
def detail_base_url : String := "https://hojyokin-portal.jp"

/-- Items per listing page, `SubsidyScraper.ITEMS_PER_PAGE`. -/
def ITEMS_PER_PAGE : Nat := 10

/-- One scraped subsidy record; absent dictionary keys are `none`. -/
structure Details where
  overview : Option Str
  target : Option Str
  subsidy_rate : Option Str
  subsidy_limit : Option Str
  eligible_expenses : Option Str
  application_method : Option Str
  contact : Option Str
  full_description : Option Str
  official_url : Option Str
deriving DecidableEq

/-- The empty details dictionary. -/
def emptyDetails : Details := ⟨none, none, none, none, none, none, none, none, none⟩

/-- A subsidy record as built by `_parse_subsidy_card`; `id` and `url` are
always present, every other key is optional. -/
structure Subsidy where
  id : Str
  url : Str
  status : Option Str
  title : Option Str
  prefecture : Option Str
  application_period : Option Str
  start_date : Option Str
  end_date : Option Str
  max_amount : Option Str
  description : Option Str
  tags : Option (List Str)
  details : Option Details
deriving DecidableEq

/-- Status scan (`scraper.py` lines 95-98): first line equal to one of the
status literals, with inner spaces removed. -/
def status_of (lines : List Str) : Option Str :=
  (lines.find? (fun l =>
    l = "公募中".data || l = "公募終了".data || l = "公募 中".data || l = "公募 終了".data)).map
    (fun l => replaceAll [' '] [] l)

/-- Title scan (`scraper.py` lines 101-107): first line containing a title
bracket, with the status literals removed and the result stripped. -/
def title_of (lines : List Str) : Option Str :=
  (lines.find? (fun l => containsSub "：「".data l || containsSub "「".data l)).map
    (fun l => pyStrip (replaceAll "公募終了".data [] (replaceAll "公募中".data [] l)))

/-- The prefecture allow-list (`scraper.py` line 111). -/
def prefecture_names : List Str :=
  ["福井県".data, "北海道".data, "東京都".data, "大阪府".data, "愛知県".data,
   "福岡県".data, "新潟県".data, "石川県".data, "富山県".data]

/-- Prefecture scan: first line equal to a prefecture name. -/
def prefecture_of (lines : List Str) : Option Str :=
  lines.find? (fun l => prefecture_names.contains l)

/-- Application-period scan (`scraper.py` lines 115-126): on the first line
containing the label, the label-stripped line plus the two optional date
groups of the range pattern. -/
def period_of (lines : List Str) : Option Str × Option Str × Option Str :=
  match lines.find? (fun l => containsSub "申請期間".data l) with
  | none => (none, none, none)
  | some l =>
    let app := pyStrip (replaceAll "申請期間".data [] l)
    match searchPeriod l with
    | none => (some app, none, none)
    | some (g1, g2) => (some app, g1, g2)

/-- Maximum-amount scan (`scraper.py` lines 129-133). -/
def max_amount_of (lines : List Str) : Option Str :=
  (lines.find? (fun l => containsSub "上限金額".data l)).map
    (fun l => pyStrip (replaceAll "上限金額".data [] l))

/-- The description exclusion keywords (`scraper.py` line 136). -/
def exclude_keywords : List Str :=
  ["公募中".data, "公募終了".data, "申請期間".data, "上限金額".data, "福井県".data, "北海道".data]

/-- The description line filter (`scraper.py` lines 138-141): not a tag
line, not containing the title marker `：「`, no exclusion keyword, and
strictly more than 20 characters. -/
def desc_ok (l : Str) : Bool :=
  !(['#'].isPrefixOf l) && !(containsSub "：「".data l) &&
    !(exclude_keywords.any (fun kw => containsSub kw l)) && decide (20 < l.length)

/-- Description scan: first line passing `desc_ok`. -/
def description_of (lines : List Str) : Option Str := lines.find? desc_ok

/-- Tag scan (`scraper.py` lines 146-153): every line starting with `#`,
split into its `#`-headed segments, each stripped. -/
def tags_of (lines : List Str) : List Str :=
  ((lines.filter (fun l => ['#'].isPrefixOf l)).map (fun l => (findTags l).map pyStrip)).flatten

/-- Python truthiness of `subsidy.get("title")`: present and non-empty. -/
def titleTruthy (s : Subsidy) : Bool :=
  match s.title with
  | some t => !t.isEmpty
  | none => false

/-- The resolved absolute detail URL of a card (`scraper.py` lines 73-79):
the `href` of the first matching anchor, absolutised. -/
def resolve_href (card : Node) : Option Str :=
  ((descendants card).find? isDetailAnchor).map (fun link =>
    let h := ((getAttr link "href").getD "").data
    if ("http".data).isPrefixOf h then h else detail_base_url.data ++ h)

/-- The numeric id of a card's resolved detail URL. -/
def card_id (card : Node) : Option Str := (resolve_href card).bind extract_subsidy_id

/-- Record construction of `_parse_subsidy_card`: one independent scan of the
line list per field. -/
def buildSubsidy (sid href : Str) (lines : List Str) : Subsidy :=
  { id := sid
    url := href
    status := status_of lines
    title := title_of lines
    prefecture := prefecture_of lines
    application_period := (period_of lines).1
    start_date := (period_of lines).2.1
    end_date := (period_of lines).2.2
    max_amount := max_amount_of lines
    description := description_of lines
    tags := (match tags_of lines with
             | [] => none
             | ts => some ts)
    details := none }

/-- Python `SubsidyScraper._parse_subsidy_card` with the run-wide seen-URL
set threaded explicitly: `none` when the card has no matching anchor, no
extractable id, or an already-seen URL; otherwise the record, with the URL
added to the set before field extraction. -/
def parse_subsidy_card (seen : List Str) (card : Node) : Option Subsidy × List Str :=
  match resolve_href card with
  | none => (none, seen)
  | some href =>
    match extract_subsidy_id href with
    | none => (none, seen)
    | some sid =>
      if href ∈ seen then (none, seen)
      else (some (buildSubsidy sid href (card_lines card)), href :: seen)

/-- The record the list-page loop appends for a card (`scraper.py` lines
180-182): the parsed record if it exists and its title is truthy. -/
def accepted_record (seen : List Str) (card : Node) : Option Subsidy × List Str :=
  match parse_subsidy_card seen card with
  | (some r, seen2) => (if titleTruthy r then some r else none, seen2)
  | (none, seen2) => (none, seen2)

/-- Block-level container tags recognised by the card search
(`scraper.py` line 176). -/
def blockTags : List String := ["article", "div", "li", "section"]

/-- The ancestor walk of `_parse_list_page` (lines 169-183): climb at most
`k` levels; at a block-level ancestor whose markup is new on this page and
whose text is longer than 50 characters, stop with that ancestor; otherwise
keep climbing. -/
def card_walk (processed : List Str) : List Node → Nat → Option Node
  | _, 0 => none
  | [], _ => none
  | p :: rest, k + 1 =>
    if tagOf p ∈ blockTags then
      if serialize p ∉ processed ∧ 50 < (getTextAll p).length then some p
      else card_walk processed rest k
    else card_walk processed rest k

/-- The container condition of the walk, as a predicate (spec wording:
block-level tag, unseen serialized markup, rendered text longer than 50). -/
def card_pred (processed : List Str) (c : Node) : Bool :=
  decide (tagOf c ∈ blockTags ∧ serialize c ∉ processed ∧ 50 < (getTextAll c).length)

/-- State of the list-page loop: accumulated records, the page-local set of
processed card markups, and the run-wide seen-URL set. -/
structure PageState where
  subsidies : List Subsidy
  processed : List Str
  seen : List Str

/-- Body of the per-anchor loop of `_parse_list_page`: find the card
container; if found, mark its markup processed, parse it, and append the
record when it exists with a truthy title. -/
def handle_link (st : PageState) (la : Node × List Node) : PageState :=
  match card_walk st.processed la.2 5 with
  | none => st
  | some card =>
    let pr := accepted_record st.seen card
    { subsidies := st.subsidies ++ (match pr.1 with
                                    | some r => [r]
                                    | none => [])
      processed := serialize card :: st.processed
      seen := pr.2 }

/-- Python `SubsidyScraper._parse_list_page`: fold the per-anchor loop over
every detail anchor of the page, starting from an empty page-local card set
and the given run-wide seen-URL set. -/
def parse_list_page (seen : List Str) (soup : Node) : List Subsidy × List Str :=
  let final := (anchorsWithAnc [] soup).foldl handle_link
    { subsidies := [], processed := [], seen := seen }
  (final.subsidies, final.seen)

/-- Python `SubsidyScraper._get_total_count`: the caption pattern first,
then the bare item-count pattern, else 0. -/
def get_total_count (soup : Node) : Nat :=
  let text := getTextAll soup
  match searchCaption text with
  | some n => n
  | none =>
    match searchNumItem text with
    | some n => n
    | none => 0

/-- The page numbers found in link targets (`scraper.py` lines 216-221). -/
def page_nums (soup : Node) : List Nat :=
  ((descendants soup).filter (fun n => tagOf n = "a" && (getAttr n "href").isSome)).filterMap
    (fun n => searchPageParam ((getAttr n "href").getD "").data)

/-- Python `SubsidyScraper._get_total_pages`: ceiling division of a positive
total count, else the maximum page-number link, defaulting to 1. -/
def get_total_pages (soup : Node) : Nat :=
  let c := get_total_count soup
  if 0 < c then (c + ITEMS_PER_PAGE - 1) / ITEMS_PER_PAGE
  else (page_nums soup).foldl max 1

/-- The heading dispatch of `_fetch_detail_page` (lines 247-260): the first
matching keyword rule assigns the sibling value to its field. -/
def apply_header (d : Details) (h v : Str) : Details :=
  if containsSub "概要".data h || containsSub "目的".data h then { d with overview := some v }
  else if containsSub "対象者".data h || containsSub "対象".data h then { d with target := some v }
  else if containsSub "補助率".data h then { d with subsidy_rate := some v }
  else if containsSub "補助上限".data h || containsSub "補助金額".data h then
    { d with subsidy_limit := some v }
  else if containsSub "対象経費".data h || containsSub "補助対象".data h then
    { d with eligible_expenses := some v }
  else if containsSub "申請方法".data h then { d with application_method := some v }
  else if containsSub "問い合わせ".data h || containsSub "連絡先".data h then
    { d with contact := some v }
  else d

/-- The class filter `re.compile(r'content|detail|main')` applied to any
token of a `class` attribute. -/
def classMatchesMain (n : Node) : Bool :=
  match getAttr n "class" with
  | none => false
  | some cls =>
    (((splitOnNl (replaceAll [' '] ['\n'] cls.data)).filter (fun t => !t.isEmpty)).any
      (fun tok =>
        containsSub "content".data tok || containsSub "detail".data tok ||
          containsSub "main".data tok))

/-- The main-content lookup of `_fetch_detail_page` (line 263):
`soup.find("main") or soup.find("article") or soup.find(class_=...)`. -/
def main_content (soup : Node) : Option Node :=
  match (descendants soup).find? (fun n => tagOf n = "main") with
  | some m => some m
  | none =>
    match (descendants soup).find? (fun n => tagOf n = "article") with
    | some m => some m
    | none => (descendants soup).find? (fun n => isElem n && classMatchesMain n)

/-- The long paragraph texts of a container (lines 266-271): stripped text of
every `p` descendant, kept when longer than 50 characters. -/
def long_texts (m : Node) : List Str :=
  (((descendants m).filter (fun n => tagOf n = "p")).map getTextStripped).filter
    (fun t => 50 < t.length)

/-- The official-site link scan of `_fetch_detail_page` (lines 276-282):
first anchor whose text contains a keyword and whose target is an absolute
URL off the portal domain. -/
def official_link (soup : Node) : Option Str :=
  ((descendants soup).filter (fun n => tagOf n = "a" && (getAttr n "href").isSome)).findSome?
    (fun n =>
      let href := ((getAttr n "href").getD "").data
      let txt := getTextStripped n
      if (containsSub "公式".data txt || containsSub "詳細".data txt ||
          containsSub "申請".data txt) &&
          ("http".data).isPrefixOf href && !(containsSub "hojyokin-portal".data href)
      then some href else none)

/-- The heading pass of `_fetch_detail_page` (lines 237-260): fold the
dispatch over every heading paired with its next element sibling, the value
being the sibling's stripped text or the empty string. -/
def header_details (soup : Node) : Details :=
  (headerPairs soup).foldl
    (fun d hp =>
      apply_header d (getTextStripped hp.1)
        (match hp.2 with
         | some v => getTextStripped v
         | none => [])) emptyDetails

/-- The parsing part of `SubsidyScraper._fetch_detail_page` applied to a
fetched detail page: heading dispatch, long-paragraph excerpt (guarded by a
`full_description` key not yet being present), official link. -/
def parse_detail_soup (soup : Node) : Details :=
  let d1 := header_details soup
  let d2 :=
    match main_content soup with
    | none => d1
    | some m =>
      let lt := long_texts m
      if lt.isEmpty = false ∧ d1.full_description = none then
        { d1 with full_description := some (joinNl (lt.take 3)) }
      else d1
  match official_link soup with
  | some h => { d2 with official_url := some h }
  | none => d2

/-- Python `SubsidyScraper._fetch_detail_page` with the fetch modelled as an
oracle from URL to markup: an empty details dictionary on fetch failure. -/
def fetch_detail_page (fetchd : Str → Option Node) (url : Str) : Details :=
  match fetchd url with
  | none => emptyDetails
  | some soup => parse_detail_soup soup

/-- The detail-enrichment step of `scrape_all` (lines 335-341): fetch the
record's detail page and attach the details when non-empty. -/
def enrich (fetchd : Str → Option Node) (s : Subsidy) : Subsidy :=
  let d := fetch_detail_page fetchd s.url
  if d ≠ emptyDetails then { s with details := some d } else s

/-- The `max_pages` cap of `scrape_all` (lines 311-312); Python treats
`None` and `0` as no cap. -/
def clamp_pages (total : Nat) (mp : Option Nat) : Nat :=
  match mp with
  | some m => if m ≠ 0 then min total m else total
  | none => total

/-- The page loop of `scrape_all` (lines 318-329): page 1 reuses the already
fetched first page; later pages are fetched, a failed fetch contributing no
records; the third component records which pages the loop fetched. -/
def scrape_loop (fetchp : Nat → Option Node) (first : Node) :
    List Nat → List Subsidy → List Str → List Nat → List Subsidy × List Str × List Nat
  | [], acc, seen, fl => (acc, seen, fl)
  | p :: ps, acc, seen, fl =>
    if p = 1 then
      let pr := parse_list_page seen first
      scrape_loop fetchp first ps (acc ++ pr.1) pr.2 fl
    else
      match fetchp p with
      | none => scrape_loop fetchp first ps acc seen (fl ++ [p])
      | some h =>
        let pr := parse_list_page seen h
        scrape_loop fetchp first ps (acc ++ pr.1) pr.2 (fl ++ [p])

/-- Result of a scrape run: the record list and the listing pages for which
a fetch was attempted, in order. -/
structure ScrapeResult where
  records : List Subsidy
  fetched_pages : List Nat
deriving DecidableEq

/-- Python `SubsidyScraper.scrape_all` over fetch oracles: fetch page 1 (an
empty run on failure), resolve and cap the page count, run the page loop
from a cleared seen-URL set, then optionally enrich each record in order. -/
def scrape_all (fetchp : Nat → Option Node) (fetchd : Str → Option Node)
    (fetch_details : Bool) (max_pages : Option Nat) : ScrapeResult :=
  match fetchp 1 with
  | none => { records := [], fetched_pages := [1] }
  | some first =>
    let total := clamp_pages (get_total_pages first) max_pages
    let res := scrape_loop fetchp first (List.range' 1 total) [] [] []
    let final :=
      if fetch_details && !res.1.isEmpty then res.1.map (enrich fetchd) else res.1
    { records := final, fetched_pages := 1 :: res.2.2 }

/-- Outcome of `JGrantsApiClient.get_subsidy_detail` up to the HTTP call:
either the `ValueError` raised by the id validation before any request, or
the GET request issued at the constructed URL. -/
inductive DetailCall where
  | invalid : DetailCall
  | request : Str → DetailCall
deriving DecidableEq

/-- Python `JGrantsApiClient.get_subsidy_detail` (`api_client.py` lines
107-135), modelled up to the request: ids that are empty or longer than 18
characters raise before any request; otherwise the GET is attempted at
`{base_url}{endpoint}/{subsidy_id}`.  The base URL and endpoint come from a
config module outside the sources, so they are parameters here. -/
def get_subsidy_detail (base ep sid : Str) : DetailCall :=
  if sid.isEmpty || decide (18 < sid.length) then DetailCall.invalid
  else DetailCall.request (base ++ ep ++ '/' :: sid)

/-- A complete demonstration card: anchor, status, title, prefecture,
period, amount, description and tags lines. -/
def c3_demo_card : Node :=
  Node.elem "div" [] [
    Node.elem "span" [] [Node.text "公募中"],
    Node.elem "a" [("href", "/subsidies/123")] [Node.text "福井県：「ものづくり補助金」"],
    Node.text "福井県",
    Node.text "申請期間 2024年4月1日〜2024年6月30日",
    Node.text "上限金額 100万円",
    Node.text "この補助金は県内の中小企業のものづくりを支援するための制度です",
    Node.text "#ものづくり#DX"]

/-- The resolved detail URL of `c3_demo_card`. -/
def c1_demo_url : Str := "https://hojyokin-portal.jp/subsidies/123".data

/-- A listing page whose text caption announces 25 matching subsidies. -/
def count_demo_soup : Node := Node.text "該当する補助金・助成金 25件"

/-- A listing page with no count caption and two page-number links. -/
def fallback_demo_soup : Node :=
  soupOf [
    Node.elem "a" [("href", "?pref_id=18&page=7")] [Node.text "next"],
    Node.elem "a" [("href", "?pref_id=18&page=2")] [Node.text "prev"],
    Node.elem "a" [("href", "/subsidies/abc")] [Node.text "x"]]

/-- A block container longer than 50 characters, for the ancestor walk. -/
def walk_demo_card : Node :=
  Node.elem "div" []
    [Node.text "五十文字を超えるだけの長さを確実に持たせるための説明用のテキストをこの要素の中にたっぷり入れておきます"]

/-- A card whose only description candidate is exactly 20 characters long. -/
def desc_demo_card : Node :=
  Node.elem "div" [] [
    Node.elem "a" [("href", "/subsidies/99")] [Node.text "詳細：「テスト補助金」"],
    Node.text "abcdefghijklmnopqrst"]

/-- The record parsed from `desc_demo_card`. -/
def desc_demo_rec : Option Subsidy := (accepted_record [] desc_demo_card).1

/-- A description line longer than 20 characters with no exclusion keyword. -/
def desc_long_line : Str :=
  "この補助金は県内の中小企業のものづくりを支援するための制度です".data

/-- A detail page with an overview heading whose sibling paragraph is also
the single long paragraph of the main container. -/
def detail_demo_soup : Node :=
  soupOf [
    Node.elem "main" [] [
      Node.elem "h2" [] [Node.text "概要"],
      Node.elem "p" [] [Node.text "この補助金は県内の中小企業の生産性向上とものづくり技術の高度化を支援するための制度であり対象はとても広いものです"]]]

/-- The long paragraph text of `detail_demo_soup`. -/
def long_para_text : Str :=
  "この補助金は県内の中小企業の生産性向上とものづくり技術の高度化を支援するための制度であり対象はとても広いものです".data

/-- Invariant of the list-page loop relative to the seen set `seen0` at
page entry: accumulated URLs are distinct, every accumulated URL is in the
current seen set but not in `seen0`, and `seen0` is preserved. -/
def PageInv (seen0 : List Str) (st : PageState) : Prop :=
  (st.subsidies.map Subsidy.url).Nodup ∧
  (∀ r ∈ st.subsidies, r.url ∈ st.seen ∧ r.url ∉ seen0) ∧
  seen0 ⊆ st.seen

/-- Empty character lists are exactly the length-zero strings. -/
theorem str_isEmpty_iff (s : Str) : s.isEmpty = true ↔ s.length = 0 := by
  cases s <;> simp

/-- C10: `JGrantsApiClient.get_subsidy_detail` raises `ValueError` exactly
when the given subsidy id is empty or longer than 18 characters, in which
case no HTTP request is issued; for ids of length 1 to 18 the validation
passes and the GET request is attempted at the constructed URL. -/
theorem get_subsidy_detail_validation :
    ∀ base ep sid : Str,
      (get_subsidy_detail base ep sid = DetailCall.invalid ↔
        sid.length = 0 ∨ 18 < sid.length) ∧
      (1 ≤ sid.length → sid.length ≤ 18 →
        get_subsidy_detail base ep sid = DetailCall.request (base ++ ep ++ '/' :: sid)) := by
  intro base ep sid
  unfold get_subsidy_detail
  by_cases h : sid.isEmpty || decide (18 < sid.length)
  · rw [if_pos h]
    simp only [Bool.or_eq_true, decide_eq_true_eq, str_isEmpty_iff] at h
    constructor
    · exact ⟨fun _ => h, fun _ => rfl⟩
    · intro h1 h2
      omega
  · rw [if_neg h]
    simp only [Bool.or_eq_true, decide_eq_true_eq, str_isEmpty_iff] at h
    push_neg at h
    constructor
    · constructor
      · intro hc
        exact absurd hc (by simp)
      · intro hc
        omega
    · intro _ _
      rfl

/-- Witness for C10 at a concrete base URL, endpoint and id of length 3. -/
theorem get_subsidy_detail_validation_witness :
    get_subsidy_detail "https://api.example".data "/subsidies/id".data "a12".data =
      DetailCall.request ("https://api.example".data ++ "/subsidies/id".data ++ '/' :: "a12".data) :=
  (get_subsidy_detail_validation "https://api.example".data "/subsidies/id".data "a12".data).2
    (by decide) (by decide)

/-- C4: whenever the pagination resolver extracts a positive total count
`n`, the resolved page count is the exact ceiling of `n / 10`
(`ITEMS_PER_PAGE` is fixed at 10): it equals `(n + 10 - 1) / 10`, and it is
the unique number of pages covering `n` items at 10 per page. -/
theorem total_pages_ceil_of_count :
    ∀ (soup : Node) (n : Nat),
      get_total_count soup = n → 0 < n →
      get_total_pages soup = (n + ITEMS_PER_PAGE - 1) / ITEMS_PER_PAGE ∧
      n ≤ ITEMS_PER_PAGE * get_total_pages soup ∧
      ITEMS_PER_PAGE * get_total_pages soup < n + ITEMS_PER_PAGE := by
  intro soup n hc hn
  have h1 : get_total_pages soup = (n + ITEMS_PER_PAGE - 1) / ITEMS_PER_PAGE := by
    unfold get_total_pages
    rw [hc, if_pos hn]
  refine ⟨h1, ?_, ?_⟩ <;> rw [h1] <;> unfold ITEMS_PER_PAGE <;> omega

/-- Witness for C4: a page whose caption announces 25 items resolves to 3
pages. -/
theorem total_pages_ceil_of_count_witness :
    get_total_pages count_demo_soup = 3 :=
  (total_pages_ceil_of_count count_demo_soup 25 rfl (by decide)).1

/-- The ancestor walk equals the first-satisfying search over the first `k`
ancestors. -/
theorem card_walk_eq_find (processed : List Str) :
    ∀ (anc : List Node) (k : Nat),
      card_walk processed anc k = (anc.take k).find? (card_pred processed) := by
  intro anc
  induction anc with
  | nil => intro k; cases k <;> rfl
  | cons p rest ih =>
    intro k
    cases k with
    | zero => rfl
    | succ k =>
      rw [List.take_succ_cons]
      by_cases h1 : tagOf p ∈ blockTags
      · by_cases h2 : serialize p ∉ processed ∧ 50 < (getTextAll p).length
        · have hp : card_pred processed p = true := by
            simp [card_pred, h1, h2.1, h2.2]
          rw [List.find?_cons_of_pos _ hp]
          simp [card_walk, h1, h2]
        · have hp : ¬ card_pred processed p = true := by
            simp only [card_pred, decide_eq_true_eq]
            intro hcon
            exact h2 ⟨hcon.2.1, hcon.2.2⟩
          rw [List.find?_cons_of_neg _ hp]
          simp only [card_walk, if_pos h1, if_neg h2]
          exact ih k
      · have hp : ¬ card_pred processed p = true := by
          simp only [card_pred, decide_eq_true_eq]
          intro hcon
          exact h1 hcon.1
        rw [List.find?_cons_of_neg _ hp]
        simp only [card_walk, if_neg h1]
        exact ih k

/-- C2: for every detail anchor, the card-container search inspects at most
the first 5 ancestors and stops at the first one that is a block-level
container, has unprocessed serialized markup, and has rendered text longer
than 50 characters; ancestors failing the length or novelty test are walked
past, and any selected container satisfies all three conditions. -/
theorem card_walk_first_matching :
    (∀ (processed : List Str) (anc : List Node),
      card_walk processed anc 5 = (anc.take 5).find? (card_pred processed)) ∧
    (∀ (processed : List Str) (anc : List Node) (c : Node),
      card_walk processed anc 5 = some c →
        tagOf c ∈ blockTags ∧ serialize c ∉ processed ∧ 50 < (getTextAll c).length) := by
  constructor
  · intro processed anc
    exact card_walk_eq_find processed anc 5
  · intro processed anc c h
    rw [card_walk_eq_find processed anc 5] at h
    have hp := List.find?_some h
    simpa [card_pred] using hp

/-- Witness for C2: the walk on a one-ancestor chain selects the block
container, which satisfies all three conditions. -/
theorem card_walk_first_matching_witness :
    tagOf walk_demo_card ∈ blockTags ∧ serialize walk_demo_card ∉ ([] : List Str) ∧
      50 < (getTextAll walk_demo_card).length :=
  card_walk_first_matching.2 [] [walk_demo_card] walk_demo_card rfl

/-- C9: on the line "申請期間 2024年4月1日〜2024年6月30日" field extraction
yields the label-stripped period, start date 2024年4月1日 and end date
2024年6月30日; in general, on the first line containing the label, the two
bounds are exactly the optional capture groups of the range pattern, so
either may independently be absent, and then is simply not set. -/
theorem application_period_extraction :
    period_of ["申請期間 2024年4月1日〜2024年6月30日".data] =
      (some "2024年4月1日〜2024年6月30日".data,
        some "2024年4月1日".data, some "2024年6月30日".data) ∧
    (∀ (lines : List Str) (l : Str) (g1 g2 : Option Str),
      lines.find? (fun l => containsSub "申請期間".data l) = some l →
      searchPeriod l = some (g1, g2) →
      period_of lines = (some (pyStrip (replaceAll "申請期間".data [] l)), g1, g2)) ∧
    (∀ (lines : List Str) (l : Str),
      lines.find? (fun l => containsSub "申請期間".data l) = some l →
      searchPeriod l = none →
      period_of lines = (some (pyStrip (replaceAll "申請期間".data [] l)), none, none)) := by
  refine ⟨by decide, ?_, ?_⟩
  · intro lines l g1 g2 h1 h2
    simp only [period_of, h1, h2]
  · intro lines l h1 h2
    simp only [period_of, h1, h2]

/-- Witness for C9: a period line with only the right bound present sets
only the end date. -/
theorem application_period_extraction_witness :
    period_of ["申請期間 〜2024年6月30日".data] =
      (some (pyStrip (replaceAll "申請期間".data [] "申請期間 〜2024年6月30日".data)),
        none, some "2024年6月30日".data) :=
  application_period_extraction.2.1 ["申請期間 〜2024年6月30日".data]
    "申請期間 〜2024年6月30日".data none (some "2024年6月30日".data) rfl rfl

/-- The left fold of `max` is at least its seed, is the seed or a list
element, and bounds every list element. -/
theorem foldl_max_spec :
    ∀ (l : List Nat) (a : Nat),
      a ≤ l.foldl max a ∧ (l.foldl max a = a ∨ l.foldl max a ∈ l) ∧
        ∀ m ∈ l, m ≤ l.foldl max a := by
  intro l
  induction l with
  | nil => intro a; simp
  | cons x xs ih =>
    intro a
    obtain ⟨h1, h2, h3⟩ := ih (max a x)
    rw [List.foldl_cons]
    refine ⟨le_trans (le_max_left a x) h1, ?_, ?_⟩
    · rcases h2 with h | h
      · rcases max_choice a x with hm | hm
        · exact Or.inl (h.trans hm)
        · exact Or.inr (by rw [h, hm]; exact List.mem_cons_self x xs)
      · exact Or.inr (List.mem_cons_of_mem x h)
    · intro m hm
      rcases List.mem_cons.mp hm with rfl | hmem
      · exact le_trans (le_max_right a m) h1
      · exact h3 m hmem

/-- C5: when no positive total count is extracted, the resolver returns the
maximum page number found in link targets (a value bounding every observed
number and itself observed, or 1 when nothing qualifies); for every input
the resolver returns at least 1 and never fails. -/
theorem total_pages_fallback_max :
    ∀ soup : Node,
      1 ≤ get_total_pages soup ∧
      (get_total_count soup = 0 →
        (∀ m ∈ page_nums soup, m ≤ get_total_pages soup) ∧
        (get_total_pages soup ∈ page_nums soup ∨ get_total_pages soup = 1) ∧
        (page_nums soup = [] → get_total_pages soup = 1)) := by
  intro soup
  by_cases h : 0 < get_total_count soup
  · constructor
    · unfold get_total_pages
      rw [if_pos h]
      unfold ITEMS_PER_PAGE
      omega
    · intro h0
      omega
  · have h0 : ¬ 0 < get_total_count soup := h
    have hpages : get_total_pages soup = (page_nums soup).foldl max 1 := by
      unfold get_total_pages
      rw [if_neg h0]
    obtain ⟨h1, h2, h3⟩ := foldl_max_spec (page_nums soup) 1
    rw [hpages]
    refine ⟨h1, fun _ => ⟨h3, ?_, ?_⟩⟩
    · rcases h2 with h | h
      · exact Or.inr h
      · exact Or.inl h
    · intro he
      rw [he]
      rfl

/-- Witness for C5 on a page with no caption and page links 7 and 2: every
observed page number is bounded by the result, the result is observed or 1,
and an empty observation would give 1. -/
theorem total_pages_fallback_max_witness :
    (∀ m ∈ page_nums fallback_demo_soup, m ≤ get_total_pages fallback_demo_soup) ∧
    (get_total_pages fallback_demo_soup ∈ page_nums fallback_demo_soup ∨
      get_total_pages fallback_demo_soup = 1) ∧
    (page_nums fallback_demo_soup = [] → get_total_pages fallback_demo_soup = 1) :=
  (total_pages_fallback_max fallback_demo_soup).2 rfl

/-- A successful `find?` splits its list at the found element, with every
earlier element failing the predicate. -/
theorem find?_split {α : Type} (p : α → Bool) :
    ∀ (l : List α) (a : α), l.find? p = some a →
      ∃ pre post, l = pre ++ a :: post ∧ ∀ x ∈ pre, p x = false := by
  intro l
  induction l with
  | nil => intro a h; simp [List.find?] at h
  | cons x xs ih =>
    intro a h
    by_cases hx : p x = true
    · rw [List.find?_cons_of_pos _ hx] at h
      obtain rfl : x = a := by injection h
      exact ⟨[], xs, rfl, by simp⟩
    · rw [List.find?_cons_of_neg _ hx] at h
      obtain ⟨pre, post, heq, hall⟩ := ih a h
      refine ⟨x :: pre, post, by rw [heq]; rfl, ?_⟩
      intro y hy
      rcases List.mem_cons.mp hy with rfl | hmem
      · exact Bool.not_eq_true _ ▸ (by simpa using hx)
      · exact hall y hmem

/-- Counterexample for C6: `desc_demo_card` contains a line of exactly 20
characters satisfying every other description condition, yet the emitted
record has no description — the code requires strictly more than 20
characters, so a 20-character line is never selected. -/
theorem description_len20_counterexample :
    desc_demo_rec.map Subsidy.description = some none ∧
    "abcdefghijklmnopqrst".data ∈ card_lines desc_demo_card ∧
    ("abcdefghijklmnopqrst".data).length = 20 ∧
    (['#'].isPrefixOf "abcdefghijklmnopqrst".data) = false ∧
    containsSub "：「".data "abcdefghijklmnopqrst".data = false ∧
    exclude_keywords.all (fun kw => !(containsSub kw "abcdefghijklmnopqrst".data)) = true := by
  refine ⟨by decide, by decide, by decide, by decide, by decide, by decide⟩

/-- C6 amended: the description is the first line strictly longer than 20
characters that does not start with the tag marker, does not contain the
exact title-marker sequence `：「` (a lone `「` does not disqualify a line),
and contains no exclusion keyword; a line of exactly 20 characters is never
selected. -/
theorem description_first_line_gt20 :
    ∀ (lines : List Str) (l : Str),
      description_of lines = some l →
        l ∈ lines ∧ 20 < l.length ∧ l.length ≠ 20 ∧
        (['#'].isPrefixOf l) = false ∧ containsSub "：「".data l = false ∧
        (∀ kw ∈ exclude_keywords, containsSub kw l = false) ∧
        ∃ pre post, lines = pre ++ l :: post ∧ ∀ x ∈ pre, desc_ok x = false := by
  intro lines l h
  have hmem : l ∈ lines := List.mem_of_find?_eq_some h
  have hok : desc_ok l = true := List.find?_some h
  have hsplit := find?_split desc_ok lines l h
  simp only [desc_ok, Bool.and_eq_true, Bool.not_eq_true', decide_eq_true_eq,
    List.any_eq_false] at hok
  obtain ⟨⟨⟨hpre, htitle⟩, hkw⟩, hlen⟩ := hok
  refine ⟨hmem, hlen, by omega, hpre, htitle, ?_, hsplit⟩
  intro kw hkwmem
  simpa using hkw kw hkwmem

/-- Witness for C6 amended, on a one-line list whose line qualifies. -/
theorem description_first_line_gt20_witness :
    desc_long_line ∈ [desc_long_line] ∧ 20 < desc_long_line.length :=
  ⟨(description_first_line_gt20 [desc_long_line] desc_long_line rfl).1,
   (description_first_line_gt20 [desc_long_line] desc_long_line rfl).2.1⟩

/-- The heading dispatch never writes the `full_description` field. -/
theorem apply_header_full_description (d : Details) (h v : Str) :
    (apply_header d h v).full_description = d.full_description := by
  unfold apply_header
  split_ifs <;> rfl

/-- The heading pass of the detail parser never sets `full_description`. -/
theorem header_details_full_description (soup : Node) :
    (header_details soup).full_description = none := by
  unfold header_details
  generalize headerPairs soup = hps
  have hgen : ∀ (l : List (Node × Option Node)) (d : Details),
      ((l.foldl (fun d hp =>
          apply_header d (getTextStripped hp.1)
            (match hp.2 with
             | some v => getTextStripped v
             | none => [])) d).full_description) = d.full_description := by
    intro l
    induction l with
    | nil => intro d; rfl
    | cons hp rest ih =>
      intro d
      rw [List.foldl_cons, ih, apply_header_full_description]
  exact hgen hps emptyDetails

/-- Counterexample for C7: on `detail_demo_soup` the heading pass extracts
an overview, and the paragraph excerpt is nonetheless attached as
`full_description` — the guard tests for an existing `full_description`
key, not for the presence of an overview. -/
theorem full_description_with_overview_counterexample :
    (parse_detail_soup detail_demo_soup).overview = some long_para_text ∧
    (parse_detail_soup detail_demo_soup).full_description = some long_para_text := by
  exact ⟨rfl, rfl⟩

/-- C7 amended: the joined excerpt of up to the first 3 long paragraphs of
the main-content container is attached as `full_description` exactly when
the container exists and has at least one paragraph longer than 50
characters, independently of whether an overview was extracted — the guard
on an already-present `full_description` key never fires, because the
heading pass cannot set that key. -/
theorem full_description_independent_of_overview :
    ∀ soup : Node,
      (parse_detail_soup soup).full_description =
        (match main_content soup with
         | none => none
         | some m =>
           if (long_texts m).isEmpty then none
           else some (joinNl ((long_texts m).take 3))) := by
  intro soup
  have hd1 : (header_details soup).full_description = none :=
    header_details_full_description soup
  unfold parse_detail_soup
  cases hmc : main_content soup with
  | none =>
    cases hol : official_link soup with
    | none => simp [hol, hd1]
    | some u => simp [hol, hd1]
  | some m =>
    cases hlt : (long_texts m).isEmpty with
    | true =>
      cases hol : official_link soup with
      | none => simp [hol, hlt, hd1]
      | some u => simp [hol, hlt, hd1]
    | false =>
      cases hol : official_link soup with
      | none => simp [hol, hlt, hd1]
      | some u => simp [hol, hlt, hd1]

/-- A card with no matching anchor yields nothing and leaves the seen set
unchanged. -/
theorem parse_card_none_of_no_href (seen : List Str) (card : Node)
    (h : resolve_href card = none) : parse_subsidy_card seen card = (none, seen) := by
  simp [parse_subsidy_card, h]

/-- A card whose resolved URL has no extractable id yields nothing. -/
theorem parse_card_none_of_no_id (seen : List Str) (card : Node) (href : Str)
    (h1 : resolve_href card = some href) (h2 : extract_subsidy_id href = none) :
    parse_subsidy_card seen card = (none, seen) := by
  simp [parse_subsidy_card, h1, h2]

/-- A card whose resolved URL is already in the seen set is discarded and
the seen set is unchanged. -/
theorem parse_card_none_of_seen (seen : List Str) (card : Node) (href : Str)
    (h1 : resolve_href card = some href) (h2 : href ∈ seen) :
    parse_subsidy_card seen card = (none, seen) := by
  simp only [parse_subsidy_card, h1]
  cases hid : extract_subsidy_id href with
  | none => rfl
  | some sid => simp [h2]

/-- A fresh card with an extractable id is parsed into its record and its
URL is recorded in the seen set. -/
theorem parse_card_eq (seen : List Str) (card : Node) (href sid : Str)
    (h1 : resolve_href card = some href) (h2 : extract_subsidy_id href = some sid)
    (h3 : href ∉ seen) :
    parse_subsidy_card seen card =
      (some (buildSubsidy sid href (card_lines card)), href :: seen) := by
  simp [parse_subsidy_card, h1, h2, h3]

/-- C3: a record is emitted by list-page extraction (given that the card's
URL is not already seen, the dedup case of C1) if and only if an
extractable id / detail URL and a non-empty title are both found; and every
other field of the emitted record is the value of its own independent line
scan, so a missing field never blocks the others or discards the record. -/
theorem record_emitted_iff_id_and_title :
    ∀ (seen : List Str) (card : Node),
      (∀ u, resolve_href card = some u → u ∉ seen) →
      (((accepted_record seen card).1.isSome = true ↔
        (∃ sid, card_id card = some sid) ∧
          ∃ t, title_of (card_lines card) = some t ∧ t ≠ []) ∧
       ∀ r, (accepted_record seen card).1 = some r →
         some r.id = card_id card ∧ some r.url = resolve_href card ∧
         r.title = title_of (card_lines card) ∧
         r.status = status_of (card_lines card) ∧
         r.prefecture = prefecture_of (card_lines card) ∧
         r.application_period = (period_of (card_lines card)).1 ∧
         r.start_date = (period_of (card_lines card)).2.1 ∧
         r.end_date = (period_of (card_lines card)).2.2 ∧
         r.max_amount = max_amount_of (card_lines card) ∧
         r.description = description_of (card_lines card) ∧
         r.tags = (match tags_of (card_lines card) with
                   | [] => none
                   | ts => some ts) ∧
         r.details = none) := by
  intro seen card hfresh
  cases hhref : resolve_href card with
  | none =>
    have ha : accepted_record seen card = (none, seen) := by
      simp [accepted_record, parse_card_none_of_no_href seen card hhref]
    rw [ha]
    constructor
    · simp [card_id, hhref]
    · intro r hr
      simp at hr
  | some href =>
    cases hid : extract_subsidy_id href with
    | none =>
      have ha : accepted_record seen card = (none, seen) := by
        simp [accepted_record, parse_card_none_of_no_id seen card href hhref hid]
      rw [ha]
      constructor
      · simp [card_id, hhref, hid]
      · intro r hr
        simp at hr
    | some sid =>
      have ha : accepted_record seen card =
          (if titleTruthy (buildSubsidy sid href (card_lines card))
            then some (buildSubsidy sid href (card_lines card)) else none, href :: seen) := by
        simp [accepted_record, parse_card_eq seen card href sid hhref hid (hfresh href hhref)]
      rw [ha]
      constructor
      · cases htl : title_of (card_lines card) with
        | none =>
          have ht : titleTruthy (buildSubsidy sid href (card_lines card)) = false := by
            simp [titleTruthy, buildSubsidy, htl]
          simp [ht, htl]
        | some t =>
          cases t with
          | nil =>
            have ht : titleTruthy (buildSubsidy sid href (card_lines card)) = false := by
              simp [titleTruthy, buildSubsidy, htl]
            simp [ht, htl]
          | cons c cs =>
            have ht : titleTruthy (buildSubsidy sid href (card_lines card)) = true := by
              simp [titleTruthy, buildSubsidy, htl]
            simp only [ht, if_true, Option.isSome_some, true_iff]
            refine ⟨⟨sid, ?_⟩, c :: cs, rfl, by simp⟩
            simp [card_id, hhref, hid]
      · intro r hr
        by_cases ht : titleTruthy (buildSubsidy sid href (card_lines card)) = true
        · rw [if_pos ht] at hr
          obtain rfl : buildSubsidy sid href (card_lines card) = r := by injection hr
          refine ⟨?_, ?_, rfl, rfl, rfl, rfl, rfl, rfl, rfl, rfl, rfl, rfl⟩
          · simp [card_id, hhref, hid, buildSubsidy]
          · simp [hhref, buildSubsidy]
        · rw [if_neg ht] at hr
          cases hr

/-- Witness for C3: the demonstration card is emitted, because its id and
title exist; the freshness hypothesis is discharged at the empty seen set. -/
theorem record_emitted_iff_id_and_title_witness :
    (accepted_record [] c3_demo_card).1.isSome = true :=
  ((record_emitted_iff_id_and_title [] c3_demo_card (fun u _ => by simp)).1).mpr
    ⟨⟨"123".data, rfl⟩, "福井県：「ものづくり補助金」".data, rfl, by simp⟩

/-- C8: a failed fetch of the first listing page makes `scrape_all` return
an empty record list with page 1 the only attempted fetch; a failed fetch
of a later page contributes zero records and zero URLs, and the loop
continues with the remaining pages, recording the attempt. -/
theorem scrape_failure_handling :
    (∀ (fetchp : Nat → Option Node) (fetchd : Str → Option Node)
        (fd : Bool) (mp : Option Nat),
      fetchp 1 = none →
      scrape_all fetchp fetchd fd mp = { records := [], fetched_pages := [1] }) ∧
    (∀ (fetchp : Nat → Option Node) (first : Node) (p : Nat) (ps : List Nat)
        (acc : List Subsidy) (seen : List Str) (fl : List Nat),
      p ≠ 1 → fetchp p = none →
      scrape_loop fetchp first (p :: ps) acc seen fl =
        scrape_loop fetchp first ps acc seen (fl ++ [p])) := by
  constructor
  · intro fetchp fetchd fd mp h
    simp [scrape_all, h]
  · intro fetchp first p ps acc seen fl hp hf
    simp [scrape_loop, hp, hf]

/-- Witness for C8: a run whose every fetch fails is empty having attempted
only page 1, and a failing page 2 is skipped by the loop. -/
theorem scrape_failure_handling_witness :
    scrape_all (fun _ => none) (fun _ => none) true none =
      { records := [], fetched_pages := [1] } ∧
    scrape_loop (fun _ => none) (Node.text "x") [2] [] [] [] =
      scrape_loop (fun _ => none) (Node.text "x") [] [] [] ([] ++ [2]) :=
  ⟨scrape_failure_handling.1 (fun _ => none) (fun _ => none) true none rfl,
   scrape_failure_handling.2 (fun _ => none) (Node.text "x") 2 [] [] [] []
     (by decide) rfl⟩

/-- Case analysis of one card acceptance: either nothing changes, or a
fresh URL is pushed on the seen set and the emitted record, if any, carries
that URL. -/
theorem accepted_record_cases (seen : List Str) (card : Node) :
    ((accepted_record seen card).1 = none ∧ (accepted_record seen card).2 = seen) ∨
    ∃ u, (accepted_record seen card).2 = u :: seen ∧ u ∉ seen ∧
      ((accepted_record seen card).1 = none ∨
        ∃ r, (accepted_record seen card).1 = some r ∧ r.url = u) := by
  cases hhref : resolve_href card with
  | none =>
    left
    simp [accepted_record, parse_card_none_of_no_href seen card hhref]
  | some href =>
    cases hid : extract_subsidy_id href with
    | none =>
      left
      simp [accepted_record, parse_card_none_of_no_id seen card href hhref hid]
    | some sid =>
      by_cases hmem : href ∈ seen
      · left
        simp [accepted_record, parse_card_none_of_seen seen card href hhref hmem]
      · right
        have hp := parse_card_eq seen card href sid hhref hid hmem
        refine ⟨href, by simp [accepted_record, hp], hmem, ?_⟩
        by_cases ht : titleTruthy (buildSubsidy sid href (card_lines card)) = true
        · right
          exact ⟨buildSubsidy sid href (card_lines card),
            by simp [accepted_record, hp, ht], rfl⟩
        · left
          simp [accepted_record, hp, ht]

/-- Case analysis of one anchor-loop step: the state is unchanged, or a
fresh URL is recorded and the appended record, if any, carries it. -/
theorem handle_link_cases (st : PageState) (la : Node × List Node) :
    ((handle_link st la).subsidies = st.subsidies ∧ (handle_link st la).seen = st.seen) ∨
    ∃ u, (handle_link st la).seen = u :: st.seen ∧ u ∉ st.seen ∧
      ((handle_link st la).subsidies = st.subsidies ∨
        ∃ r, (handle_link st la).subsidies = st.subsidies ++ [r] ∧ r.url = u) := by
  unfold handle_link
  cases hw : card_walk st.processed la.2 5 with
  | none => exact Or.inl ⟨rfl, rfl⟩
  | some card =>
    rcases accepted_record_cases st.seen card with ⟨h1, h2⟩ | ⟨u, h2, hu, h1⟩
    · left
      exact ⟨by simp [h1], by simp [h2]⟩
    · right
      refine ⟨u, by simp [h2], hu, ?_⟩
      rcases h1 with h1 | ⟨r, h1, hr⟩
      · left
        simp [h1]
      · right
        exact ⟨r, by simp [h1], hr⟩

/-- One anchor-loop step preserves the page invariant and grows the seen
set. -/
theorem handle_link_inv (seen0 : List Str) (st : PageState) (la : Node × List Node)
    (h : PageInv seen0 st) :
    PageInv seen0 (handle_link st la) ∧ st.seen ⊆ (handle_link st la).seen := by
  obtain ⟨hnd, hmem, hsub⟩ := h
  rcases handle_link_cases st la with ⟨h1, h2⟩ | ⟨u, h2, hu, h1⟩
  · refine ⟨⟨?_, ?_, ?_⟩, ?_⟩
    · rw [h1]; exact hnd
    · rw [h1, h2]; exact hmem
    · rw [h2]; exact hsub
    · rw [h2]; exact fun x hx => hx
  · have hsub2 : st.seen ⊆ (handle_link st la).seen := by
      rw [h2]; exact fun x hx => List.mem_cons_of_mem _ hx
    refine ⟨⟨?_, ?_, ?_⟩, hsub2⟩
    · rcases h1 with h1 | ⟨r, h1, hr⟩
      · rw [h1]; exact hnd
      · rw [h1, List.map_append, List.nodup_append]
        refine ⟨hnd, by simp, ?_⟩
        intro a ha hb
        obtain ⟨x, hxm, hxu⟩ := List.mem_map.mp ha
        have hseen : a ∈ st.seen := hxu ▸ (hmem x hxm).1
        have hb' : a = r.url := by simpa using hb
        rw [hb', hr] at hseen
        exact hu hseen
    · intro r' hr'
      rcases h1 with h1 | ⟨r, h1, hr⟩
      · rw [h1] at hr'
        obtain ⟨hin, hout⟩ := hmem r' hr'
        exact ⟨h2 ▸ List.mem_cons_of_mem _ hin, hout⟩
      · rw [h1] at hr'
        rcases List.mem_append.mp hr' with hin | hin
        · obtain ⟨hin2, hout⟩ := hmem r' hin
          exact ⟨h2 ▸ List.mem_cons_of_mem _ hin2, hout⟩
        · obtain rfl : r' = r := by simpa using hin
          refine ⟨?_, ?_⟩
          · rw [h2, hr]; exact List.mem_cons_self _ _
          · rw [hr]; intro hc; exact hu (hsub hc)
    · rw [h2]
      exact fun x hx => List.mem_cons_of_mem _ (hsub hx)

/-- The anchor fold preserves the page invariant and grows the seen set. -/
theorem foldl_handle_inv (seen0 : List Str) :
    ∀ (links : List (Node × List Node)) (st : PageState),
      PageInv seen0 st →
      PageInv seen0 (links.foldl handle_link st) ∧
        st.seen ⊆ (links.foldl handle_link st).seen := by
  intro links
  induction links with
  | nil => intro st h; exact ⟨h, fun x hx => hx⟩
  | cons la rest ih =>
    intro st h
    rw [List.foldl_cons]
    obtain ⟨h1, h2⟩ := handle_link_inv seen0 st la h
    obtain ⟨h3, h4⟩ := ih (handle_link st la) h1
    exact ⟨h3, fun x hx => h4 (h2 hx)⟩

/-- A page parse yields records with distinct URLs, all recorded in the
outgoing seen set and none in the incoming one, which is preserved. -/
theorem parse_list_page_spec (seen0 : List Str) (soup : Node) :
    ((parse_list_page seen0 soup).1.map Subsidy.url).Nodup ∧
    (∀ r ∈ (parse_list_page seen0 soup).1,
      r.url ∈ (parse_list_page seen0 soup).2 ∧ r.url ∉ seen0) ∧
    seen0 ⊆ (parse_list_page seen0 soup).2 := by
  have h0 : PageInv seen0 { subsidies := [], processed := [], seen := seen0 } :=
    ⟨by simp, by simp, fun x hx => hx⟩
  obtain ⟨⟨h1, h2, h3⟩, _⟩ := foldl_handle_inv seen0 (anchorsWithAnc [] soup)
    { subsidies := [], processed := [], seen := seen0 } h0
  exact ⟨h1, h2, h3⟩

/-- The page loop keeps accumulated URLs distinct and recorded in the
threaded seen set. -/
theorem scrape_loop_inv (fetchp : Nat → Option Node) (first : Node) :
    ∀ (ps : List Nat) (acc : List Subsidy) (seen : List Str) (fl : List Nat),
      (acc.map Subsidy.url).Nodup → (∀ r ∈ acc, r.url ∈ seen) →
      (((scrape_loop fetchp first ps acc seen fl).1.map Subsidy.url).Nodup ∧
        ∀ r ∈ (scrape_loop fetchp first ps acc seen fl).1,
          r.url ∈ (scrape_loop fetchp first ps acc seen fl).2.1) := by
  intro ps
  induction ps with
  | nil => intro acc seen fl h1 h2; exact ⟨h1, h2⟩
  | cons p rest ih =>
    intro acc seen fl h1 h2
    have step : ∀ (soup : Node),
        (((acc ++ (parse_list_page seen soup).1).map Subsidy.url).Nodup ∧
          ∀ r ∈ acc ++ (parse_list_page seen soup).1,
            r.url ∈ (parse_list_page seen soup).2) := by
      intro soup
      obtain ⟨k1, k2, k3⟩ := parse_list_page_spec seen soup
      constructor
      · rw [List.map_append, List.nodup_append]
        refine ⟨h1, k1, ?_⟩
        intro a ha hb
        obtain ⟨x, hxm, hxu⟩ := List.mem_map.mp ha
        obtain ⟨y, hym, hyu⟩ := List.mem_map.mp hb
        have hxs : a ∈ seen := hxu ▸ h2 x hxm
        have hys : a ∉ seen := hyu ▸ (k2 y hym).2
        exact hys hxs
      · intro r hr
        rcases List.mem_append.mp hr with hin | hin
        · exact k3 (h2 r hin)
        · exact (k2 r hin).1
    by_cases hp : p = 1
    · subst hp
      rw [scrape_loop, if_pos rfl]
      exact ih _ _ _ (step first).1 (step first).2
    · rw [scrape_loop, if_neg hp]
      cases hf : fetchp p with
      | none => exact ih acc seen (fl ++ [p]) h1 h2
      | some h => exact ih _ _ _ (step h).1 (step h).2

/-- Enrichment does not change a record's URL. -/
theorem enrich_url (fetchd : Str → Option Node) (s : Subsidy) :
    (enrich fetchd s).url = s.url := by
  simp only [enrich]
  split <;> rfl

/-- Enrichment of a record list does not change the URL list. -/
theorem map_enrich_urls (fetchd : Str → Option Node) :
    ∀ l : List Subsidy, (l.map (enrich fetchd)).map Subsidy.url = l.map Subsidy.url := by
  intro l
  induction l with
  | nil => rfl
  | cons x xs ih => simp [enrich_url, ih]

/-- C1: within one `scrape_all` run no detail URL appears twice in the
output record list; moreover, the URL of an accepted candidate is pushed on
the run-wide seen set at acceptance time (even if the record is later
discarded for lacking a title, the set keeps the URL), and a candidate
whose resolved URL is already in the seen set is discarded with the set
unchanged, whatever page or card subtree it comes from. -/
theorem scrape_all_urls_nodup :
    (∀ (fetchp : Nat → Option Node) (fetchd : Str → Option Node)
        (fd : Bool) (mp : Option Nat),
      (((scrape_all fetchp fetchd fd mp).records).map Subsidy.url).Nodup) ∧
    (∀ (seen : List Str) (card : Node) (r : Subsidy) (seen2 : List Str),
      parse_subsidy_card seen card = (some r, seen2) →
      seen2 = r.url :: seen ∧ r.url ∉ seen) ∧
    (∀ (seen : List Str) (card : Node) (u : Str),
      resolve_href card = some u → u ∈ seen →
      parse_subsidy_card seen card = (none, seen)) := by
  refine ⟨?_, ?_, ?_⟩
  · intro fetchp fetchd fd mp
    unfold scrape_all
    cases h1 : fetchp 1 with
    | none => simp
    | some first =>
      have hinv := scrape_loop_inv fetchp first
        (List.range' 1 (clamp_pages (get_total_pages first) mp)) [] [] []
        (by simp) (by simp)
      show ((if fd &&
            !(scrape_loop fetchp first
              (List.range' 1 (clamp_pages (get_total_pages first) mp)) [] [] []).1.isEmpty
          then (scrape_loop fetchp first
              (List.range' 1 (clamp_pages (get_total_pages first) mp)) [] [] []).1.map
              (enrich fetchd)
          else (scrape_loop fetchp first
              (List.range' 1 (clamp_pages (get_total_pages first) mp)) [] [] []).1).map
        Subsidy.url).Nodup
      by_cases hfd : (fd &&
          !(scrape_loop fetchp first
            (List.range' 1 (clamp_pages (get_total_pages first) mp)) [] [] []).1.isEmpty) = true
      · rw [if_pos hfd, map_enrich_urls]
        exact hinv.1
      · rw [if_neg hfd]
        exact hinv.1
  · intro seen card r seen2 h
    cases hhref : resolve_href card with
    | none =>
      rw [parse_card_none_of_no_href seen card hhref] at h
      simp at h
    | some href =>
      cases hid : extract_subsidy_id href with
      | none =>
        rw [parse_card_none_of_no_id seen card href hhref hid] at h
        simp at h
      | some sid =>
        by_cases hmem : href ∈ seen
        · rw [parse_card_none_of_seen seen card href hhref hmem] at h
          simp at h
        · rw [parse_card_eq seen card href sid hhref hid hmem] at h
          simp only [Prod.mk.injEq, Option.some.injEq] at h
          obtain ⟨hr, hs⟩ := h
          subst hr
          exact ⟨hs.symm, hmem⟩
  · intro seen card u h1 h2
    exact parse_card_none_of_seen seen card u h1 h2

/-- Witness for C1: a candidate card whose URL is already in the seen set
is discarded and the set is unchanged. -/
theorem scrape_all_urls_nodup_witness :
    parse_subsidy_card [c1_demo_url] c3_demo_card = (none, [c1_demo_url]) :=
  scrape_all_urls_nodup.2.2 [c1_demo_url] c3_demo_card c1_demo_url rfl (by decide)
